import Mathlib

/-!
Shallow embedding of the adb-client TypeScript library (src/utils.ts,
src/errors.ts, src/adb.ts) and proofs about it.

Conventions of the embedding:
* JS strings are Lean `String`s; character-level operations work on `List Char`.
* The JS regular-expression class `\s` is modelled by `isWs`, covering its
  ASCII members (space, tab, newline, carriage return, vertical tab, form
  feed); every input appearing in the claims uses only these.
* `node:child_process` `exec` is modelled by an `ExecOutcome` value supplied
  by the environment: either the promise resolved (`ok stdout stderr`,
  i.e. the child exited successfully within the timeout) or it rejected
  (`err message timedOut`, where `timedOut` records whether the rejection
  was the runtime killing the child for exceeding `timeout`).  The library
  code receives only the rejection's `message`.
* Thrown JS errors are modelled with `Except`; the error classes of
  errors.ts become an `ADBError` record whose `name` field plays the role
  of the JS class name.
-/

namespace AdbClient

/-- ASCII members of the JS regex class `\s`. -/
def isWs (c : Char) : Bool :=
  c = ' ' || c = '\t' || c = '\n' || c = '\r' || c = '\x0b' || c = '\x0c'

/-- Model of JS `String.prototype.trim` on char lists. -/
def trimChars (l : List Char) : List Char :=
  ((l.dropWhile (fun c => isWs c)).reverse.dropWhile (fun c => isWs c)).reverse

/-- Model of JS `String.prototype.trim`. -/
def jsTrim (s : String) : String := String.mk (trimChars s.toList)

/-- `hasPrefixList p s` is true when `p` is a prefix of `s`. -/
def hasPrefixList : List Char → List Char → Bool
  | [], _ => true
  | _ :: _, [] => false
  | p :: ps, s :: ss => p = s && hasPrefixList ps ss

/-- `infixOfList pat s` is true when `pat` occurs contiguously in `s`. -/
def infixOfList (pat : List Char) : List Char → Bool
  | [] => pat.isEmpty
  | c :: cs => hasPrefixList pat (c :: cs) || infixOfList pat cs

/-- Model of JS `String.prototype.includes` (substring containment). -/
def containsSub (s pat : String) : Bool := infixOfList pat.toList s.toList

/-- Worker for `splitChar`; `acc` holds the current field reversed. -/
def splitCharAux (sep : Char) : List Char → List Char → List (List Char)
  | [], acc => [acc.reverse]
  | c :: cs, acc =>
      if c = sep then acc.reverse :: splitCharAux sep cs []
      else splitCharAux sep cs (c :: acc)

/-- Model of JS `String.prototype.split` with a single-character separator
(empty fields are kept, exactly as in JS). -/
def splitChar (sep : Char) (s : String) : List String :=
  (splitCharAux sep s.toList []).map String.mk

/-! ## errors.ts

`ADBError extends Error { message, code?, command? }`;
`DeviceNotFoundError extends ADBError`;
`CommandError extends ADBError`.
The JS class name (the `name` field set in each constructor) is the `name`
field here. -/

structure ADBError where
  name : String
  message : String
  code : Option String
  command : Option String
deriving Repr, DecidableEq

/-- `new ADBError(message)` (code and command omitted). -/
def mkADBError (message : String) : ADBError :=
  { name := "ADBError", message := message, code := none, command := none }

/-- `new DeviceNotFoundError(serialNumber)`. -/
def mkDeviceNotFoundError (serialNumber : String) : ADBError :=
  { name := "DeviceNotFoundError"
    message := "Device not found: " ++ serialNumber
    code := none
    command := none }

/-- `new CommandError(message, command)`:
`super(message, 'COMMAND_FAILED', command)`. -/
def mkCommandError (message command : String) : ADBError :=
  { name := "CommandError"
    message := message
    code := some "COMMAND_FAILED"
    command := some command }

/-! ## utils.ts -/

/-- Outcome of `execAsync(command, { timeout })` as observed by the library.
`ok stdout stderr`: the promise resolved (child exited with code 0 before the
timeout).  `err message timedOut`: the promise rejected with an `Error`
carrying `message`; `timedOut` records whether the rejection came from the
runtime terminating the child because it exceeded the timeout (the library
never reads this flag). -/
inductive ExecOutcome where
  | ok (stdout stderr : String)
  | err (message : String) (timedOut : Bool)
deriving Repr, DecidableEq

/-- `executeCommand` from utils.ts: on resolution, throw `new Error(stderr)`
(caught below and wrapped into `CommandError(stderr, command)`) when stderr
is non-empty and does not contain 'Warning', else return `stdout.trim()`;
on rejection, wrap the rejection's message into
`CommandError(message, command)`. -/
def executeCommand (command : String) (outcome : ExecOutcome) :
    Except ADBError String :=
  match outcome with
  | .ok stdout stderr =>
      if stderr ≠ "" ∧ containsSub stderr "Warning" = false then
        .error (mkCommandError stderr command)
      else
        .ok (jsTrim stdout)
  | .err message _ => .error (mkCommandError message command)

/-- `sanitizePath` recursion: `path.replace(/(\s+)/g, '\\$1')` inserts a
single backslash before each maximal run of whitespace.  `inRun` is true
while inside a whitespace run already prefixed by its backslash. -/
def sanitizeAux : List Char → Bool → List Char
  | [], _ => []
  | c :: cs, inRun =>
      if isWs c then
        if inRun then c :: sanitizeAux cs true
        else '\\' :: c :: sanitizeAux cs true
      else c :: sanitizeAux cs false

/-- `sanitizePath` from utils.ts: `path.replace(/(\s+)/g, '\\$1')`. -/
def sanitizePath (path : String) : String :=
  String.mk (sanitizeAux path.toList false)

/-- Number of maximal whitespace runs, i.e. of matches of `/(\s+)/g` and
hence of backslashes inserted by `sanitizePath` (`inRun` as in
`sanitizeAux`). -/
def wsRunStarts : List Char → Bool → Nat
  | [], _ => 0
  | c :: cs, inRun =>
      if isWs c then
        if inRun then wsRunStarts cs true else 1 + wsRunStarts cs true
      else wsRunStarts cs false

/-! ## Regular-expression fragments

The adb.ts parsers use regexes of the shape `PAT(\C+)` where `PAT` is a
literal string and `\C` a character class: the engine scans positions left
to right, and at the first position where the literal matches and is
followed by at least one class character it captures the maximal run of
class characters. -/

/-- Numeric value of a digit list (the effect of JS `Number`/`parseInt` on a
captured digit string). -/
def digitsVal (ds : List Char) : Nat :=
  ds.foldl (fun n c => 10 * n + (c.toNat - '0'.toNat)) 0

/-- Try to match the literal `pat` at the head of the input, then capture the
maximal non-empty run of characters satisfying `good`; returns the capture
and the remainder after it. -/
def capHereRest (good : Char → Bool) : List Char → List Char →
    Option (List Char × List Char)
  | [], rest =>
      let ds := rest.takeWhile good
      if ds.isEmpty then none else some (ds, rest.drop ds.length)
  | _ :: _, [] => none
  | p :: ps, r :: rs => if p = r then capHereRest good ps rs else none

/-- First capture of the regex `pat(good+)` scanning left to right. -/
def firstCaptureAux (good : Char → Bool) (pat : List Char) :
    List Char → Option (List Char)
  | [] => none
  | c :: cs =>
      match capHereRest good pat (c :: cs) with
      | some (ds, _) => some ds
      | none => firstCaptureAux good pat cs

/-- First capture of the regex `pat(good+)` over a string, as a string. -/
def firstCapture (pat : String) (good : Char → Bool) (s : String) :
    Option String :=
  (firstCaptureAux good pat.toList s.toList).map String.mk

/-- Characters matched by the JS class `[^\s]` (equivalently `\S`). -/
def nonWs (c : Char) : Bool := !(isWs c)

/-! ## Splitting on whitespace

Model of JS `line.split(/\s+/).filter(Boolean)`: the list of maximal runs of
non-whitespace characters (splitting may produce a leading empty string,
which `filter(Boolean)` removes; our accumulator formulation never emits
empty fields, which is the same thing). -/

/-- Accumulator worker for `splitWs`; `acc` holds the current field
reversed. -/
def splitWsAux : List Char → List Char → List (List Char)
  | [], acc => if acc.isEmpty then [] else [acc.reverse]
  | c :: cs, acc =>
      if isWs c then
        if acc.isEmpty then splitWsAux cs []
        else acc.reverse :: splitWsAux cs []
      else splitWsAux cs (c :: acc)

/-- JS `s.split(/\s+/).filter(Boolean)`. -/
def splitWs (s : String) : List String :=
  (splitWsAux s.toList []).map String.mk

/-! ## adb.ts: device-list parsing (`getDevices`) -/

/-- One parsed device-list entry.  In the source `state` is the unchecked
cast `rest[0] as DeviceInfo['state']`, so at runtime it is the raw second
token when present and `undefined` otherwise; we model that honestly with
`Option String`. -/
structure DeviceInfo where
  serialNumber : String
  state : Option String
  model : Option String
  product : Option String
deriving Repr, DecidableEq

/-- Key of a `key:value` token: JS `item.split(':')[0]`. -/
def kvKey (item : String) : String := (splitChar ':' item).headD ""

/-- Value of a `key:value` token: JS `item.split(':')[1]` (absent when the
token has no colon). -/
def kvValue (item : String) : Option String := (splitChar ':' item)[1]?

/-- The value assigned by the last `key:value` token whose key is `key`
(later `rest.forEach` iterations overwrite earlier assignments), absent
when no token has that key. -/
def lastKVValue (key : String) (items : List String) : Option String :=
  match items.reverse.find? (fun it => kvKey it == key) with
  | some it => kvValue it
  | none => none

/-- Body of the `rest.forEach` loop of `getDevices`: assign `model` /
`product` from a `key:value` token when the key matches. -/
def applyToken (info : DeviceInfo) (item : String) : DeviceInfo :=
  if kvKey item = "model" then { info with model := kvValue item }
  else if kvKey item = "product" then { info with product := kvValue item }
  else info

/-- Parse one non-blank device line: split on whitespace, first token is the
serial number, second the state, then scan the remaining tokens for
`model:`/`product:` entries. -/
def parseDeviceLine (line : String) : DeviceInfo :=
  let tokens := splitWs line
  let rest := tokens.drop 1
  rest.foldl applyToken
    { serialNumber := tokens.headD ""
      state := tokens[1]?
      model := none
      product := none }

/-- The device lines of a `devices -l` output: drop the header line, drop
blank lines. -/
def deviceLines (output : String) : List String :=
  ((splitChar '\n' output).drop 1).filter (fun l => jsTrim l != "")

/-- The parsing part of `getDevices` applied to the executor's output. -/
def getDevicesParse (output : String) : List DeviceInfo :=
  (deviceLines output).map parseDeviceLine

/-- The connection-state union type `DeviceState` of types.ts. -/
def stateEnum : List String := ["device", "offline", "unauthorized", "connecting"]

/-! ## adb.ts: package-info parsing (`getPackageInfo`) -/

structure PackageInfo where
  packageName : String
  versionName : String
  versionCode : String
deriving Repr, DecidableEq

/-- The parsing part of `getPackageInfo`: two independent regex searches
`/versionName=([^\s]+)/` and `/versionCode=([^\s]+)/`, defaulting to `''`,
and the `packageName` argument copied into the result. -/
def getPackageInfoParse (packageName output : String) : PackageInfo :=
  { packageName := packageName
    versionName := (firstCapture "versionName=" nonWs output).getD ""
    versionCode := (firstCapture "versionCode=" nonWs output).getD "" }

/-! ## adb.ts: battery parsing (`getBatteryInfo`) -/

/-- Parsed battery snapshot; `powerSource` is the string-literal union
`'ac' | 'usb' | 'wireless' | 'none'`.  Temperature is modelled in `ℚ`
(the JS computation is `Number(...)/10`). -/
structure BatteryInfo where
  level : Nat
  temperature : ℚ
  isCharging : Bool
  powerSource : String
deriving Repr, DecidableEq

/-- The parsing part of `getBatteryInfo`: first matches of
`/level: (\d+)/` and `/temperature: (\d+)/` (default 0), charging from the
`status: 2` / `status: 5` substrings, power source by ordered substring
checks AC, then USB, then wireless, defaulting to none. -/
def getBatteryInfoParse (output : String) : BatteryInfo :=
  let level := ((firstCapture "level: " Char.isDigit output).map
    (fun s => digitsVal s.toList)).getD 0
  let temp := ((firstCapture "temperature: " Char.isDigit output).map
    (fun s => digitsVal s.toList)).getD 0
  { level := level
    temperature := (temp : ℚ) / 10
    isCharging :=
      containsSub output "status: 2" || containsSub output "status: 5"
    powerSource :=
      if containsSub output "AC powered: true" then "ac"
      else if containsSub output "USB powered: true" then "usb"
      else if containsSub output "Wireless powered: true" then "wireless"
      else "none" }

/-! ## adb.ts: network parsing (`getNetworkInfo`)

The two regexes here use `.*` (which does not cross newlines) and
backtracking; the models below implement the semantics position by
position. -/

/-- Characters of the JS class `[\d.]`. -/
def digitDot (c : Char) : Bool := c.isDigit || c = '.'

/-- One attempt of `/inet ([\d.]+).*wlan0/` at the head of the input: match
the literal, capture the maximal `[\d.]+` run, then require `wlan0` later on
the same line (`.*` cannot cross a newline; `wlan0` cannot begin inside the
captured run since `w` is not in `[\d.]`, so greediness never shortens the
capture). -/
def ipMatchHere (s : List Char) : Option (List Char) :=
  match capHereRest digitDot "inet ".toList s with
  | some (ds, rest) =>
      if infixOfList "wlan0".toList (rest.takeWhile (fun c => c ≠ '\n')) then
        some ds
      else none
  | none => none

/-- First match of `/inet ([\d.]+).*wlan0/`, scanning left to right. -/
def ipFirst : List Char → Option (List Char)
  | [] => none
  | c :: cs =>
      match ipMatchHere (c :: cs) with
      | some ds => some ds
      | none => ipFirst cs

/-- Last occurrence in a single line of `inet ` followed by a non-empty
`[\d.]+` run (the effect of the greedy `.*` before `inet ([\d.]+)`),
returning the capture and the offset just past it. -/
def lastInetAux : List Char → Nat → Option (List Char × Nat) →
    Option (List Char × Nat)
  | [], _, acc => acc
  | c :: cs, i, acc =>
      match capHereRest digitDot "inet ".toList (c :: cs) with
      | some (ds, _) => lastInetAux cs (i + 1) (some (ds, i + 5 + ds.length))
      | none => lastInetAux cs (i + 1) acc

/-- One attempt of `/\d+: ([^:]+):.*inet ([\d.]+)/` at the head of the
input: digits, `': '`, a non-empty run of non-colon characters (the
interface name; `[^:]+` is stopped exactly at the next colon), `':'`, then
the last `inet `-address on the rest of the line.  Returns the two captures
and the remainder after the match. -/
def ifaceMatchHere (s : List Char) : Option (List Char × List Char × List Char) :=
  let ds := s.takeWhile Char.isDigit
  if ds.isEmpty then none
  else
    match s.drop ds.length with
    | ':' :: ' ' :: r2 =>
        let name := r2.takeWhile (fun c => c ≠ ':')
        if name.isEmpty then none
        else
          match r2.drop name.length with
          | ':' :: r4 =>
              match lastInetAux (r4.takeWhile (fun c => c ≠ '\n')) 0 none with
              | some (ip, used) => some (name, ip, r4.drop used)
              | none => none
          | _ => none
    | _ => none

/-- `matchAll` loop for the interface regex: find each next match and resume
scanning after it.  `fuel` bounds the recursion (each step consumes at least
one character, so `fuel = s.length` is exact). -/
def ifaceScanF : Nat → List Char → List (List Char × List Char)
  | 0, _ => []
  | _ + 1, [] => []
  | fuel + 1, c :: cs =>
      match ifaceMatchHere (c :: cs) with
      | some (name, ip, rest) => (name, ip) :: ifaceScanF fuel rest
      | none => ifaceScanF fuel cs

/-- JS `Record` assignment `interfaces[iface] = ip`: replace an existing
binding or append a new one. -/
def setKV : List (String × String) → String → String → List (String × String)
  | [], k, v => [(k, v)]
  | (k₂, v₂) :: rest, k, v =>
      if k₂ = k then (k, v) :: rest else (k₂, v₂) :: setKV rest k v

/-- One attempt of `/SignalLevel: (-?\d+)/` at the head of the input, with
the captured string fed to `parseInt`: an optional minus sign then a
non-empty digit run. -/
def signalHere (s : List Char) : Option Int :=
  match capHereRest Char.isDigit "SignalLevel: ".toList s with
  | some (ds, _) => some (Int.ofNat (digitsVal ds))
  | none =>
      match capHereRest Char.isDigit "SignalLevel: -".toList s with
      | some (ds, _) => some (-(Int.ofNat (digitsVal ds)))
      | none => none

/-- First match of `/SignalLevel: (-?\d+)/` as an integer. -/
def signalAux : List Char → Option Int
  | [] => none
  | c :: cs =>
      match signalHere (c :: cs) with
      | some v => some v
      | none => signalAux cs

/-- `parseInt(wifiOutput.match(/SignalLevel: (-?\d+)/)?.[1] ?? '0')` without
the `'0'` default. -/
def signalLevelCapture (s : String) : Option Int := signalAux s.toList

/-- Parsed network snapshot.  `wifiSignalLevel` is declared optional in the
TS return type, hence `Option Int` here. -/
structure NetworkInfo where
  ipAddress : String
  wifiEnabled : Bool
  wifiSignalLevel : Option Int
  interfaces : List (String × String)
deriving Repr, DecidableEq

/-- The parsing part of `getNetworkInfo`, over the outputs of
`shell ip addr show` and `shell dumpsys wifi`. -/
def getNetworkInfoParse (ipOutput wifiOutput : String) : NetworkInfo :=
  { ipAddress := ((ipFirst ipOutput.toList).map String.mk).getD ""
    wifiEnabled := containsSub wifiOutput "Wi-Fi is enabled"
    wifiSignalLevel := some ((signalLevelCapture wifiOutput).getD 0)
    interfaces :=
      (ifaceScanF ipOutput.toList.length ipOutput.toList).foldl
        (fun m p => setKV m (String.mk p.1) (String.mk p.2)) [] }

/-! ## adb.ts: construction and path resolution -/

/-- The ambient host state read by the constructor: the platform check of
utils.ts, `homedir()`, the environment variables, and `existsSync`
(modelled as a predicate on paths). -/
structure Env where
  isWindows : Bool
  home : String
  localAppData : Option String
  androidHome : Option String
  pathExists : String → Bool

/-- Model of `node:path` `join` for the two-argument uses in adb.ts
(separator concatenation; `join('', b)` normalises to `b`). -/
def joinPath (a b : String) : String := if a = "" then b else a ++ "/" ++ b

/-- `getPotentialADBPaths`: platform-specific well-known locations first,
then an `ANDROID_HOME`-derived path when that variable is set (JS truthiness:
an empty value is skipped). -/
def getPotentialADBPaths (env : Env) : List String :=
  let base :=
    if env.isWindows then
      [joinPath (env.localAppData.getD "") "Android/Sdk/platform-tools/adb.exe",
       "C:\\Android\\sdk\\platform-tools\\adb.exe",
       joinPath env.home "AppData/Local/Android/Sdk/platform-tools/adb.exe"]
    else
      ["/usr/local/bin/adb",
       "/usr/bin/adb",
       joinPath env.home "Library/Android/sdk/platform-tools/adb",
       joinPath env.home "Android/Sdk/platform-tools/adb"]
  let extra :=
    match env.androidHome with
    | some h =>
        if h = "" then []
        else [joinPath (joinPath h "platform-tools")
                (if env.isWindows then "adb.exe" else "adb")]
    | none => []
  base ++ extra

/-- `findADBPath`: the first candidate that exists, else the `ADBError`
thrown by the constructor. -/
def findADBPath (env : Env) : Except ADBError String :=
  match (getPotentialADBPaths env).find? env.pathExists with
  | some p => .ok p
  | none =>
      .error (mkADBError
        "ADB not found. Please ensure Android SDK is installed and properly configured.")

/-- The immutable state of a constructed `ADB` instance. -/
structure Config where
  adbPath : String
  timeout : Nat
deriving Repr, DecidableEq

/-- The constructor: `timeout ?? 30000`, `customPath ?? findADBPath()`.
Pure: it consults only the host environment, never the executor. -/
def mkADB (env : Env) (customPath : Option String) (timeout : Option Nat) :
    Except ADBError Config :=
  match customPath with
  | some p => .ok { adbPath := p, timeout := timeout.getD 30000 }
  | none =>
      (findADBPath env).map
        (fun p => { adbPath := p, timeout := timeout.getD 30000 })

/-! ## adb.ts: command execution and operations

An executor oracle `exec : String → ExecOutcome` gives the outcome of each
spawned child process. -/

/-- `execute`: prefix the quoted binary path and delegate. -/
def fullCommand (cfg : Config) (command : String) : String :=
  "\"" ++ cfg.adbPath ++ "\" " ++ command

/-- Run a sequence of commands, in order, stopping at the first failure:
returns the trace of commands actually issued and the surfaced error, if
any.  This is the shape of every composite operation in adb.ts (each `await
this.execute(...)` in order, an exception aborting the rest). -/
def runCmds (exec : String → ExecOutcome) : List String →
    List String × Option ADBError
  | [] => ([], none)
  | c :: cs =>
      match executeCommand c (exec c) with
      | .error e => ([c], some e)
      | .ok _ =>
          match runCmds exec cs with
          | (tr, r) => (c :: tr, r)

/-- First `takeScreenshot` step: capture to the remote temp path
(`tempPath = '/sdcard/screenshot.png'`). -/
def screencapCommand (cfg : Config) (serialNumber : String) : String :=
  fullCommand cfg
    ("-s " ++ serialNumber ++ " shell screencap -p /sdcard/screenshot.png")

/-- Second `takeScreenshot` step: pull the remote temp file to the
(sanitized) local output path. -/
def pullScreenshotCommand (cfg : Config) (serialNumber outputPath : String) :
    String :=
  fullCommand cfg
    ("-s " ++ serialNumber ++ " pull /sdcard/screenshot.png \"" ++
      sanitizePath outputPath ++ "\"")

/-- Third `takeScreenshot` step: delete the remote temp file. -/
def rmScreenshotCommand (cfg : Config) (serialNumber : String) : String :=
  fullCommand cfg ("-s " ++ serialNumber ++ " shell rm /sdcard/screenshot.png")

/-- The three command lines of `takeScreenshot`, in source order: capture to
the remote temp path, pull to the (sanitized) local path, remove the remote
temp file. -/
def screenshotCommands (cfg : Config) (serialNumber outputPath : String) :
    List String :=
  [screencapCommand cfg serialNumber,
   pullScreenshotCommand cfg serialNumber outputPath,
   rmScreenshotCommand cfg serialNumber]

/-- `takeScreenshot`: issue the three commands in order. -/
def takeScreenshot (cfg : Config) (serialNumber outputPath : String)
    (exec : String → ExecOutcome) : List String × Option ADBError :=
  runCmds exec (screenshotCommands cfg serialNumber outputPath)

/-- The command line issued by `getDevices`. -/
def devicesCommand (cfg : Config) : String := fullCommand cfg "devices -l"

/-- `getDevices`: one command, then the device-list parser. -/
def getDevices (cfg : Config) (exec : String → ExecOutcome) :
    Except ADBError (List DeviceInfo) :=
  (executeCommand (devicesCommand cfg) (exec (devicesCommand cfg))).map
    getDevicesParse

/-- The command line issued by `getPackageInfo`. -/
def packageInfoCommand (cfg : Config) (serialNumber packageName : String) :
    String :=
  fullCommand cfg
    ("-s " ++ serialNumber ++ " shell dumpsys package " ++ packageName)

/-- `getPackageInfo`: one `shell dumpsys package` command, then the package
parser (which copies the `packageName` argument into the result). -/
def getPackageInfo (cfg : Config) (serialNumber packageName : String)
    (exec : String → ExecOutcome) : Except ADBError PackageInfo :=
  (executeCommand (packageInfoCommand cfg serialNumber packageName)
      (exec (packageInfoCommand cfg serialNumber packageName))).map
    (getPackageInfoParse packageName)

/-- The command line issued by `getBatteryInfo`. -/
def batteryCommand (cfg : Config) (serialNumber : String) : String :=
  fullCommand cfg ("-s " ++ serialNumber ++ " shell dumpsys battery")

/-- `getBatteryInfo`: one `shell dumpsys battery` command, then the battery
parser. -/
def getBatteryInfo (cfg : Config) (serialNumber : String)
    (exec : String → ExecOutcome) : Except ADBError BatteryInfo :=
  (executeCommand (batteryCommand cfg serialNumber)
      (exec (batteryCommand cfg serialNumber))).map getBatteryInfoParse

/-- The first command line issued by `getNetworkInfo`. -/
def ipAddrCommand (cfg : Config) (serialNumber : String) : String :=
  fullCommand cfg ("-s " ++ serialNumber ++ " shell ip addr show")

/-- The second command line issued by `getNetworkInfo`. -/
def wifiDumpCommand (cfg : Config) (serialNumber : String) : String :=
  fullCommand cfg ("-s " ++ serialNumber ++ " shell dumpsys wifi")

/-- `getNetworkInfo`: `shell ip addr show` then `shell dumpsys wifi`, then
the network parser over the two outputs. -/
def getNetworkInfo (cfg : Config) (serialNumber : String)
    (exec : String → ExecOutcome) : Except ADBError NetworkInfo :=
  match executeCommand (ipAddrCommand cfg serialNumber)
      (exec (ipAddrCommand cfg serialNumber)) with
  | .error e => .error e
  | .ok ipOut =>
      match executeCommand (wifiDumpCommand cfg serialNumber)
          (exec (wifiDumpCommand cfg serialNumber)) with
      | .error e => .error e
      | .ok wifiOut => .ok (getNetworkInfoParse ipOut wifiOut)

/-! ## General lemmas about the executor -/

/-- Every error thrown by `executeCommand` is a `CommandError` wrapping some
diagnostic message together with the executed command line. -/
theorem executeCommand_error_shape (command : String) (o : ExecOutcome)
    (e : ADBError) (h : executeCommand command o = Except.error e) :
    ∃ m, e = mkCommandError m command := by
  cases o with
  | ok stdout stderr =>
      simp only [executeCommand] at h
      by_cases hc : stderr ≠ "" ∧ containsSub stderr "Warning" = false
      · rw [if_pos hc] at h
        exact ⟨stderr, (Except.error.inj h).symm⟩
      · rw [if_neg hc] at h
        exact Except.noConfusion h
  | err message timedOut =>
      exact ⟨message, (Except.error.inj h).symm⟩

/-- Errors surfaced by a command sequence come from `executeCommand` for one
of the issued commands, unchanged. -/
theorem runCmds_error (exec : String → ExecOutcome) (cmds : List String)
    (e : ADBError) (h : (runCmds exec cmds).2 = some e) :
    ∃ c ∈ cmds, executeCommand c (exec c) = Except.error e := by
  induction cmds with
  | nil => simp [runCmds] at h
  | cons c cs ih =>
      unfold runCmds at h
      cases hE : executeCommand c (exec c) with
      | error e₂ =>
          rw [hE] at h
          simp only at h
          exact ⟨c, List.mem_cons_self c cs, by rw [hE, Option.some.inj h]⟩
      | ok s =>
          rw [hE] at h
          simp only at h
          obtain ⟨c₂, hmem, hc₂⟩ := ih h
          exact ⟨c₂, List.mem_cons_of_mem c hmem, hc₂⟩

end AdbClient

namespace AdbClient

/-! ## Claim C1 -/

/-- C1, counterexample to the claim as stated: there is no timeout-classified
error kind.  On a timeout rejection, `executeCommand` raises the same
`CommandError` (name `CommandError`, code `COMMAND_FAILED`) as on an
ordinary non-timeout failure: the two are not distinguishable by kind. -/
theorem claim1_counterexample :
    executeCommand "\"adb\" devices -l" (ExecOutcome.err "timed out" true) =
      Except.error (mkCommandError "timed out" "\"adb\" devices -l") ∧
    executeCommand "\"adb\" devices -l"
        (ExecOutcome.err "Command failed: exit 1" false) =
      Except.error (mkCommandError "Command failed: exit 1" "\"adb\" devices -l") ∧
    (mkCommandError "timed out" "\"adb\" devices -l").name = "CommandError" ∧
    (mkCommandError "timed out" "\"adb\" devices -l").name =
      (mkCommandError "Command failed: exit 1" "\"adb\" devices -l").name ∧
    (mkCommandError "timed out" "\"adb\" devices -l").code =
      (mkCommandError "Command failed: exit 1" "\"adb\" devices -l").code :=
  ⟨rfl, rfl, rfl, rfl, rfl⟩

/-- C1, amended: if the child process exceeds the timeout (the runtime kills
it and the exec promise rejects), the call fails — no partial result is
returned — but the error is the generic `CommandError` with code
`COMMAND_FAILED` carrying the command line; its classification (name and
code) is identical to that of every other command failure, there being no
separate timeout kind. -/
theorem claim1_timeout_generic_failure (command message : String) :
    executeCommand command (ExecOutcome.err message true) =
      Except.error (mkCommandError message command) ∧
    (∀ s, executeCommand command (ExecOutcome.err message true) ≠ Except.ok s) ∧
    (mkCommandError message command).name = "CommandError" ∧
    (mkCommandError message command).code = some "COMMAND_FAILED" ∧
    (∀ m₂ c₂, (mkCommandError message command).name =
        (mkCommandError m₂ c₂).name ∧
      (mkCommandError message command).code = (mkCommandError m₂ c₂).code) :=
  ⟨rfl, fun s h => by simp [executeCommand] at h, rfl, rfl,
    fun _ _ => ⟨rfl, rfl⟩⟩

/-- C1 witness: the amended theorem applied to a concrete timed-out
invocation. -/
theorem claim1_witness :
    executeCommand "\"adb\" pull /sdcard/a.png \"./a.png\""
        (ExecOutcome.err "killed" true) =
      Except.error
        (mkCommandError "killed" "\"adb\" pull /sdcard/a.png \"./a.png\"") ∧
    executeCommand "\"adb\" pull /sdcard/a.png \"./a.png\""
        (ExecOutcome.err "killed" true) ≠ Except.ok "partial output" :=
  ⟨(claim1_timeout_generic_failure "\"adb\" pull /sdcard/a.png \"./a.png\""
      "killed").1,
   (claim1_timeout_generic_failure "\"adb\" pull /sdcard/a.png \"./a.png\""
      "killed").2.1 "partial output"⟩

/-! ## Claim C3 -/

/-- C3: `executeCommand` returns the trimmed standard output exactly when
the child resolves (successful exit) with an error stream that is empty or
contains the allow-listed `Warning` marker; a resolved process with any
other non-empty error stream fails with `CommandError(stderr, command)`,
and a rejected process fails with `CommandError(message, command)`; every
error carries the original command line, the `COMMAND_FAILED` code and the
raw diagnostic text as its message. -/
theorem claim3_executor_contract (command stdout stderr message : String)
    (timedOut : Bool) :
    (stderr = "" →
      executeCommand command (ExecOutcome.ok stdout stderr) =
        Except.ok (jsTrim stdout)) ∧
    (containsSub stderr "Warning" = true →
      executeCommand command (ExecOutcome.ok stdout stderr) =
        Except.ok (jsTrim stdout)) ∧
    (stderr ≠ "" → containsSub stderr "Warning" = false →
      executeCommand command (ExecOutcome.ok stdout stderr) =
        Except.error (mkCommandError stderr command)) ∧
    executeCommand command (ExecOutcome.err message timedOut) =
      Except.error (mkCommandError message command) ∧
    (∀ o e, executeCommand command o = Except.error e →
      e.name = "CommandError" ∧ e.code = some "COMMAND_FAILED" ∧
        e.command = some command) := by
  refine ⟨?_, ?_, ?_, rfl, ?_⟩
  · intro h; simp [executeCommand, h]
  · intro h; simp [executeCommand, h]
  · intro h₁ h₂; simp [executeCommand, h₁, h₂]
  · intro o e h
    obtain ⟨m, rfl⟩ := executeCommand_error_shape command o e h
    exact ⟨rfl, rfl, rfl⟩

/-- C3 witness: the contract applied to concrete outcomes of each kind. -/
theorem claim3_witness :
    executeCommand "\"adb\" devices -l" (ExecOutcome.ok "  out  " "") =
      Except.ok "out" ∧
    executeCommand "\"adb\" devices -l"
        (ExecOutcome.ok "out" "Warning: insecure") = Except.ok "out" ∧
    executeCommand "\"adb\" devices -l" (ExecOutcome.ok "out" "error: x") =
      Except.error (mkCommandError "error: x" "\"adb\" devices -l") ∧
    (mkCommandError "error: x" "\"adb\" devices -l").command =
      some "\"adb\" devices -l" := by
  refine ⟨?_, ?_, ?_, ?_⟩
  · exact (claim3_executor_contract "\"adb\" devices -l" "  out  " "" "m"
      false).1 rfl
  · exact (claim3_executor_contract "\"adb\" devices -l" "out"
      "Warning: insecure" "m" false).2.1 (by decide)
  · exact (claim3_executor_contract "\"adb\" devices -l" "out" "error: x" "m"
      false).2.2.1 (by decide) (by decide)
  · exact ((claim3_executor_contract "\"adb\" devices -l" "out" "error: x" "m"
      false).2.2.2.2 (ExecOutcome.ok "out" "error: x")
        (mkCommandError "error: x" "\"adb\" devices -l") (by rfl)).2.2

/-! ## Claim C8 -/

/-- C8: no operation raises `DeviceNotFoundError`.  Whatever commands an
operation issues and whatever the executor does, a surfaced failure is the
unchanged `CommandError` produced by `executeCommand` for one of the issued
commands — name `CommandError`, code `COMMAND_FAILED` — and is never equal
to a `DeviceNotFoundError`; the library performs no output inspection to
classify a missing-device case. -/
theorem claim8_no_device_not_found (exec : String → ExecOutcome)
    (cmds : List String) (e : ADBError)
    (h : (runCmds exec cmds).2 = some e) :
    e.name = "CommandError" ∧ e.code = some "COMMAND_FAILED" ∧
    (∃ c ∈ cmds, executeCommand c (exec c) = Except.error e) ∧
    ∀ serialNumber, e ≠ mkDeviceNotFoundError serialNumber := by
  obtain ⟨c, hmem, hc⟩ := runCmds_error exec cmds e h
  obtain ⟨m, rfl⟩ := executeCommand_error_shape c (exec c) e hc
  refine ⟨rfl, rfl, ⟨c, hmem, hc⟩, ?_⟩
  intro serialNumber hEq
  have : "CommandError" = "DeviceNotFoundError" :=
    congrArg ADBError.name hEq
  exact absurd this (by decide)

/-- C8 witness: a concrete failing run surfaces the executor's
`CommandError` unchanged and is not a `DeviceNotFoundError`. -/
theorem claim8_witness :
    (runCmds (fun _ => ExecOutcome.err "boom" false) ["\"adb\" kill-server"]).2 =
      some (mkCommandError "boom" "\"adb\" kill-server") ∧
    (mkCommandError "boom" "\"adb\" kill-server").name = "CommandError" ∧
    mkCommandError "boom" "\"adb\" kill-server" ≠
      mkDeviceNotFoundError "emulator-5554" :=
  ⟨rfl,
   (claim8_no_device_not_found (fun _ => ExecOutcome.err "boom" false)
      ["\"adb\" kill-server"] (mkCommandError "boom" "\"adb\" kill-server")
      rfl).1,
   (claim8_no_device_not_found (fun _ => ExecOutcome.err "boom" false)
      ["\"adb\" kill-server"] (mkCommandError "boom" "\"adb\" kill-server")
      rfl).2.2.2 "emulator-5554"⟩

/-! ## Claim C9 -/

/-- C9: `getPackageInfo` copies its `packageName` argument into the result
verbatim for every command output — the field is never parsed from the
dump — while `versionName` and `versionCode` come from two independent
regex searches, each defaulting to the empty string when absent. -/
theorem claim9_package_name_verbatim (cfg : Config)
    (serialNumber packageName : String) (exec : String → ExecOutcome) :
    (∀ r, getPackageInfo cfg serialNumber packageName exec = Except.ok r →
      r.packageName = packageName) ∧
    (∀ output, (getPackageInfoParse packageName output).packageName =
      packageName) ∧
    (∀ output, firstCapture "versionName=" nonWs output = none →
      (getPackageInfoParse packageName output).versionName = "") ∧
    (∀ output, firstCapture "versionCode=" nonWs output = none →
      (getPackageInfoParse packageName output).versionCode = "") ∧
    (∀ output v, firstCapture "versionName=" nonWs output = some v →
      (getPackageInfoParse packageName output).versionName = v) ∧
    (∀ output v, firstCapture "versionCode=" nonWs output = some v →
      (getPackageInfoParse packageName output).versionCode = v) := by
  refine ⟨?_, fun _ => rfl, ?_, ?_, ?_, ?_⟩
  · intro r h
    unfold getPackageInfo at h
    cases hE : executeCommand (packageInfoCommand cfg serialNumber packageName)
        (exec (packageInfoCommand cfg serialNumber packageName)) with
    | error e => rw [hE] at h; exact absurd h (by simp [Except.map])
    | ok out =>
        rw [hE] at h
        simp only [Except.map, Except.ok.injEq] at h
        rw [← h]
        rfl
  · intro output h; simp [getPackageInfoParse, h]
  · intro output h; simp [getPackageInfoParse, h]
  · intro output v h; simp [getPackageInfoParse, h]
  · intro output v h; simp [getPackageInfoParse, h]

/-- C9 witness: a dump that names a different package and has no version
tokens still yields the argument package name, with empty-string
defaults. -/
theorem claim9_witness :
    getPackageInfo { adbPath := "/usr/bin/adb", timeout := 30000 }
        "emulator-5554" "com.example.app"
        (fun _ => ExecOutcome.ok "Package [com.other.app] (1234):\n" "") =
      Except.ok (PackageInfo.mk "com.example.app" "" "") ∧
    (getPackageInfoParse "com.example.app"
        "Package [com.other.app] (1234):\n").packageName = "com.example.app" :=
  ⟨by rfl,
   (claim9_package_name_verbatim { adbPath := "/usr/bin/adb", timeout := 30000 }
      "emulator-5554" "com.example.app"
      (fun _ => ExecOutcome.ok "Package [com.other.app] (1234):\n" "")).2.1
      "Package [com.other.app] (1234):\n"⟩

/-! ## Claim C10 -/

/-- C10: the parsed network snapshot always carries a defined
`wifiSignalLevel`, even though the field is declared optional: it is the
integer captured by the first `SignalLevel:` match of the Wi-Fi dump, and
`0` (not absent) when there is no match; this holds for every pair of
command outputs, and through the full `getNetworkInfo` pipeline. -/
theorem claim10_signal_level_defined (ipOutput wifiOutput : String) :
    (getNetworkInfoParse ipOutput wifiOutput).wifiSignalLevel =
      some ((signalLevelCapture wifiOutput).getD 0) ∧
    (getNetworkInfoParse ipOutput wifiOutput).wifiSignalLevel ≠ none ∧
    (signalLevelCapture wifiOutput = none →
      (getNetworkInfoParse ipOutput wifiOutput).wifiSignalLevel = some 0) ∧
    (∀ n, signalLevelCapture wifiOutput = some n →
      (getNetworkInfoParse ipOutput wifiOutput).wifiSignalLevel = some n) ∧
    (∀ cfg serialNumber exec r,
      getNetworkInfo cfg serialNumber exec = Except.ok r →
      r.wifiSignalLevel ≠ none) := by
  refine ⟨rfl, by simp [getNetworkInfoParse], ?_, ?_, ?_⟩
  · intro h; simp [getNetworkInfoParse, h]
  · intro n h; simp [getNetworkInfoParse, h]
  · intro cfg serialNumber exec r h
    unfold getNetworkInfo at h
    cases hE₁ : executeCommand (ipAddrCommand cfg serialNumber)
        (exec (ipAddrCommand cfg serialNumber)) with
    | error e => rw [hE₁] at h; exact absurd h (by simp)
    | ok ipOut =>
        rw [hE₁] at h
        simp only at h
        cases hE₂ : executeCommand (wifiDumpCommand cfg serialNumber)
            (exec (wifiDumpCommand cfg serialNumber)) with
        | error e => rw [hE₂] at h; exact absurd h (by simp)
        | ok wifiOut =>
            rw [hE₂] at h
            simp only [Except.ok.injEq] at h
            rw [← h]
            simp [getNetworkInfoParse]

/-! ## Claim C5 -/

/-- C5, counterexample to the claim as stated: containing the substrings
`level: 87`, `temperature: 253`, `status: 2` is not enough, because the
parser takes the FIRST `level:` regex match.  A dump whose first `level:`
number is 5 and which also contains `level: 87` parses to level 5. -/
theorem claim5_counterexample :
    containsSub "level: 5 level: 87 temperature: 253 status: 2"
      "level: 87" = true ∧
    containsSub "level: 5 level: 87 temperature: 253 status: 2"
      "temperature: 253" = true ∧
    containsSub "level: 5 level: 87 temperature: 253 status: 2"
      "status: 2" = true ∧
    (getBatteryInfoParse "level: 5 level: 87 temperature: 253 status: 2").level = 5 ∧
    ¬ (getBatteryInfoParse "level: 5 level: 87 temperature: 253 status: 2").level = 87 := by
  refine ⟨by decide, by decide, by decide, by decide, by decide⟩

/-- C5, amended: for every dump text whose FIRST `level: `-digits match
captures `87` and whose first `temperature: `-digits match captures `253`,
and which contains `status: 2`, the snapshot reports level 87, temperature
253/10 (the spec's 25.3) and charging; and for every dump text the power
source is decided by ordered substring checks — AC, then USB, then
wireless, defaulting to none — first match winning. -/
theorem claim5_battery_parse (output : String) :
    (firstCapture "level: " Char.isDigit output = some "87" →
      firstCapture "temperature: " Char.isDigit output = some "253" →
      containsSub output "status: 2" = true →
      (getBatteryInfoParse output).level = 87 ∧
      (getBatteryInfoParse output).temperature = 253 / 10 ∧
      (getBatteryInfoParse output).isCharging = true) ∧
    ((25.3 : ℚ) = 253 / 10) ∧
    (containsSub output "AC powered: true" = true →
      (getBatteryInfoParse output).powerSource = "ac") ∧
    (containsSub output "AC powered: true" = false →
      containsSub output "USB powered: true" = true →
      (getBatteryInfoParse output).powerSource = "usb") ∧
    (containsSub output "AC powered: true" = false →
      containsSub output "USB powered: true" = false →
      containsSub output "Wireless powered: true" = true →
      (getBatteryInfoParse output).powerSource = "wireless") ∧
    (containsSub output "AC powered: true" = false →
      containsSub output "USB powered: true" = false →
      containsSub output "Wireless powered: true" = false →
      (getBatteryInfoParse output).powerSource = "none") := by
  refine ⟨?_, by norm_num, ?_, ?_, ?_, ?_⟩
  · intro h₁ h₂ h₃
    refine ⟨?_, ?_, ?_⟩
    · simp [getBatteryInfoParse, h₁]
      decide
    · simp [getBatteryInfoParse, h₂]
      have hv : digitsVal ['2', '5', '3'] = 253 := by decide
      rw [hv]
      norm_num
    · simp [getBatteryInfoParse, h₃]
  · intro h; simp [getBatteryInfoParse, h]
  · intro h₁ h₂; simp [getBatteryInfoParse, h₁, h₂]
  · intro h₁ h₂ h₃; simp [getBatteryInfoParse, h₁, h₂, h₃]
  · intro h₁ h₂ h₃; simp [getBatteryInfoParse, h₁, h₂, h₃]

/-- C5 witness: the canonical dump, in which each key occurs once, parses to
level 87, temperature 253/10, charging, AC power. -/
theorem claim5_witness :
    (getBatteryInfoParse "AC powered: true\nlevel: 87\ntemperature: 253\nstatus: 2\n").level = 87 ∧
    (getBatteryInfoParse "AC powered: true\nlevel: 87\ntemperature: 253\nstatus: 2\n").temperature = 253 / 10 ∧
    (getBatteryInfoParse "AC powered: true\nlevel: 87\ntemperature: 253\nstatus: 2\n").isCharging = true ∧
    (getBatteryInfoParse "AC powered: true\nlevel: 87\ntemperature: 253\nstatus: 2\n").powerSource = "ac" := by
  have h := claim5_battery_parse
    "AC powered: true\nlevel: 87\ntemperature: 253\nstatus: 2\n"
  obtain ⟨h₁, h₂, h₃⟩ := h.1 (by decide) (by decide) (by decide)
  exact ⟨h₁, h₂, h₃, h.2.2.1 (by decide)⟩

/-! ## Claim C6 -/

/-- The candidate list with the environment-variable entry removed:
exactly the platform-specific well-known locations. -/
theorem getPotentialADBPaths_structure (env : Env) :
    (env.androidHome = none →
      getPotentialADBPaths env =
        getPotentialADBPaths { env with androidHome := none }) ∧
    (∀ h, env.androidHome = some h → h ≠ "" →
      getPotentialADBPaths env =
        getPotentialADBPaths { env with androidHome := none } ++
          [joinPath (joinPath h "platform-tools")
            (if env.isWindows then "adb.exe" else "adb")]) := by
  constructor
  · intro hA
    simp [getPotentialADBPaths, hA]
  · intro h hA hne
    cases hW : env.isWindows <;> simp [getPotentialADBPaths, hA, hne, hW]

/-- `find?` returns the first element satisfying the predicate: the list
decomposes with only failing elements before it. -/
theorem find?_first {α : Type} (p : α → Bool) :
    ∀ (l : List α) (a : α), l.find? p = some a →
      ∃ l₁ l₂, l = l₁ ++ a :: l₂ ∧ ∀ x ∈ l₁, p x = false := by
  intro l
  induction l with
  | nil => intro a h; simp [List.find?] at h
  | cons c cs ih =>
      intro a h
      by_cases hc : p c = true
      · rw [List.find?_cons_of_pos _ hc] at h
        exact ⟨[], cs, by rw [Option.some.inj h]; simp, by simp⟩
      · rw [List.find?_cons_of_neg _ (by simpa using hc)] at h
        obtain ⟨l₁, l₂, hEq, hAll⟩ := ih a h
        refine ⟨c :: l₁, l₂, by rw [hEq]; simp, ?_⟩
        intro x hx
        rcases List.mem_cons.mp hx with rfl | hx
        · simpa using hc
        · exact hAll x hx

/-- C6: with no explicit binary path, construction resolves the path by
scanning the ordered candidate list — platform well-known directories
first, then the `ANDROID_HOME`-derived entry when the variable is set (see
`getPotentialADBPaths_structure`) — and succeeds with the first candidate
that exists on the filesystem; when no candidate exists it fails, before
any command is executed, with the `ADBError` whose message is the
"ADB not found" text (not a command failure: no command is attached). -/
theorem claim6_path_resolution (env : Env) (timeout : Option Nat) :
    (∀ p, (getPotentialADBPaths env).find? env.pathExists = some p →
      mkADB env none timeout =
        Except.ok { adbPath := p, timeout := timeout.getD 30000 } ∧
      env.pathExists p = true ∧
      ∃ l₁ l₂, getPotentialADBPaths env = l₁ ++ p :: l₂ ∧
        ∀ q ∈ l₁, env.pathExists q = false) ∧
    ((∀ p ∈ getPotentialADBPaths env, env.pathExists p = false) →
      mkADB env none timeout =
        Except.error (mkADBError
          "ADB not found. Please ensure Android SDK is installed and properly configured.") ∧
      (mkADBError
        "ADB not found. Please ensure Android SDK is installed and properly configured.").name =
        "ADBError" ∧
      containsSub
        (mkADBError
          "ADB not found. Please ensure Android SDK is installed and properly configured.").message
        "not found" = true ∧
      (mkADBError
        "ADB not found. Please ensure Android SDK is installed and properly configured.").command =
        none) := by
  constructor
  · intro p hp
    refine ⟨?_, List.find?_some hp, find?_first env.pathExists _ p hp⟩
    unfold mkADB findADBPath
    rw [hp]
    rfl
  · intro hAll
    have hNone : (getPotentialADBPaths env).find? env.pathExists = none := by
      rw [List.find?_eq_none]
      intro x hx
      simp [hAll x hx]
    refine ⟨?_, rfl, by decide, rfl⟩
    unfold mkADB findADBPath
    rw [hNone]
    rfl

/-- C6 witness: on a Unix-like host where only `/usr/bin/adb` exists,
construction selects it (skipping the earlier missing candidate); on a host
with no candidates at all, construction fails with the not-found error. -/
theorem claim6_witness :
    mkADB
      { isWindows := false, home := "/home/u", localAppData := none,
        androidHome := some "/opt/android",
        pathExists := fun p => p == "/usr/bin/adb" } none none =
      Except.ok { adbPath := "/usr/bin/adb", timeout := 30000 } ∧
    mkADB
      { isWindows := false, home := "/home/u", localAppData := none,
        androidHome := none, pathExists := fun _ => false } none none =
      Except.error (mkADBError
        "ADB not found. Please ensure Android SDK is installed and properly configured.") :=
  ⟨((claim6_path_resolution
      { isWindows := false, home := "/home/u", localAppData := none,
        androidHome := some "/opt/android",
        pathExists := fun p => p == "/usr/bin/adb" } none).1 "/usr/bin/adb"
      (by decide)).1,
   ((claim6_path_resolution
      { isWindows := false, home := "/home/u", localAppData := none,
        androidHome := none, pathExists := fun _ => false } none).2
      (by decide)).1⟩

/-! ## Claim C7 -/

/-- The last character of `A ++ (B ++ L)` is the last character of `L` when
`L` is non-empty. -/
theorem getLast?_data_append₂ (A B L : String) (hL : L.data ≠ []) :
    (A ++ (B ++ L)).data.getLast? = L.data.getLast? := by
  rw [String.data_append, String.data_append]
  rw [List.getLast?_append_of_ne_nil _
    (fun hh => hL (List.append_eq_nil.mp hh).2)]
  rw [List.getLast?_append_of_ne_nil _ hL]

/-- The capture and delete steps of `takeScreenshot` are different command
lines (their fixed suffixes have different lengths). -/
theorem screencap_ne_rm (cfg : Config) (serialNumber : String) :
    screencapCommand cfg serialNumber ≠ rmScreenshotCommand cfg serialNumber := by
  intro h
  have hl := congrArg String.length h
  simp only [screencapCommand, rmScreenshotCommand, fullCommand,
    String.length_append] at hl
  have h12 : (" shell screencap -p /sdcard/screenshot.png" : String).length =
      (" shell rm /sdcard/screenshot.png" : String).length := by omega
  exact absurd h12 (by decide)

/-- The pull and delete steps of `takeScreenshot` are different command
lines (the pull command ends with a quote, the delete command with `g`). -/
theorem pull_ne_rm (cfg : Config) (serialNumber outputPath : String) :
    pullScreenshotCommand cfg serialNumber outputPath ≠
      rmScreenshotCommand cfg serialNumber := by
  intro h
  have h2 := congrArg (fun s => s.data.getLast?) h
  simp only [pullScreenshotCommand, rmScreenshotCommand, fullCommand] at h2
  rw [getLast?_data_append₂ _ _ _ (by decide),
      getLast?_data_append₂ _ _ _ (by decide)] at h2
  exact absurd h2 (by decide)

/-- C7: `takeScreenshot` issues exactly its three steps in the fixed order
capture, pull, delete; when all succeed the trace is exactly those three
commands in order; when the middle (pull) step fails, the surfaced error is
that step's command failure, the trace stops at the pull command — the
third step is not executed — and the delete command is absent from the
trace, so the remote file created by the first step is not deleted by the
library. -/
theorem claim7_screenshot_order (cfg : Config)
    (serialNumber outputPath : String) (exec : String → ExecOutcome) :
    screenshotCommands cfg serialNumber outputPath =
      [screencapCommand cfg serialNumber,
       pullScreenshotCommand cfg serialNumber outputPath,
       rmScreenshotCommand cfg serialNumber] ∧
    (∀ s₁ s₂ s₃,
      executeCommand (screencapCommand cfg serialNumber)
          (exec (screencapCommand cfg serialNumber)) = Except.ok s₁ →
      executeCommand (pullScreenshotCommand cfg serialNumber outputPath)
          (exec (pullScreenshotCommand cfg serialNumber outputPath)) =
        Except.ok s₂ →
      executeCommand (rmScreenshotCommand cfg serialNumber)
          (exec (rmScreenshotCommand cfg serialNumber)) = Except.ok s₃ →
      takeScreenshot cfg serialNumber outputPath exec =
        ([screencapCommand cfg serialNumber,
          pullScreenshotCommand cfg serialNumber outputPath,
          rmScreenshotCommand cfg serialNumber], none)) ∧
    (∀ s₁ e,
      executeCommand (screencapCommand cfg serialNumber)
          (exec (screencapCommand cfg serialNumber)) = Except.ok s₁ →
      executeCommand (pullScreenshotCommand cfg serialNumber outputPath)
          (exec (pullScreenshotCommand cfg serialNumber outputPath)) =
        Except.error e →
      takeScreenshot cfg serialNumber outputPath exec =
        ([screencapCommand cfg serialNumber,
          pullScreenshotCommand cfg serialNumber outputPath], some e) ∧
      rmScreenshotCommand cfg serialNumber ∉
        (takeScreenshot cfg serialNumber outputPath exec).1) := by
  refine ⟨rfl, ?_, ?_⟩
  · intro s₁ s₂ s₃ h₁ h₂ h₃
    simp [takeScreenshot, screenshotCommands, runCmds, h₁, h₂, h₃]
  · intro s₁ e h₁ h₂
    have hRun : takeScreenshot cfg serialNumber outputPath exec =
        ([screencapCommand cfg serialNumber,
          pullScreenshotCommand cfg serialNumber outputPath], some e) := by
      simp [takeScreenshot, screenshotCommands, runCmds, h₁, h₂]
    refine ⟨hRun, ?_⟩
    rw [hRun]
    intro hmem
    rcases List.mem_cons.mp hmem with hEq | hmem₂
    · exact screencap_ne_rm cfg serialNumber hEq.symm
    · rcases List.mem_cons.mp hmem₂ with hEq | hmem₃
      · exact pull_ne_rm cfg serialNumber outputPath hEq.symm
      · exact absurd hmem₃ (List.not_mem_nil _)

/-- C7 witness: with a concrete executor whose pull step fails, the trace is
capture-then-pull, the surfaced error is the pull failure, and the delete
command never runs. -/
theorem claim7_witness :
    takeScreenshot { adbPath := "/usr/bin/adb", timeout := 30000 } "dev1"
        "./shot 1.png"
        (fun c =>
          if c = screencapCommand { adbPath := "/usr/bin/adb", timeout := 30000 }
              "dev1" then
            ExecOutcome.ok "" ""
          else ExecOutcome.err "pull failed" false) =
      ([screencapCommand { adbPath := "/usr/bin/adb", timeout := 30000 } "dev1",
        pullScreenshotCommand { adbPath := "/usr/bin/adb", timeout := 30000 }
          "dev1" "./shot 1.png"],
       some (mkCommandError "pull failed"
        (pullScreenshotCommand { adbPath := "/usr/bin/adb", timeout := 30000 }
          "dev1" "./shot 1.png"))) ∧
    rmScreenshotCommand { adbPath := "/usr/bin/adb", timeout := 30000 } "dev1" ∉
      (takeScreenshot { adbPath := "/usr/bin/adb", timeout := 30000 } "dev1"
        "./shot 1.png"
        (fun c =>
          if c = screencapCommand { adbPath := "/usr/bin/adb", timeout := 30000 }
              "dev1" then
            ExecOutcome.ok "" ""
          else ExecOutcome.err "pull failed" false)).1 :=
  (claim7_screenshot_order { adbPath := "/usr/bin/adb", timeout := 30000 }
    "dev1" "./shot 1.png"
    (fun c =>
      if c = screencapCommand { adbPath := "/usr/bin/adb", timeout := 30000 }
          "dev1" then
        ExecOutcome.ok "" ""
      else ExecOutcome.err "pull failed" false)).2.2 ""
    (mkCommandError "pull failed"
      (pullScreenshotCommand { adbPath := "/usr/bin/adb", timeout := 30000 }
        "dev1" "./shot 1.png"))
    (by rfl) (by rfl)

/-- C10 witness: a dump with a signal level yields it; a dump without one
yields `some 0`, not `none`. -/
theorem claim10_witness :
    (getNetworkInfoParse "" "Wi-Fi is enabled\nSignalLevel: -67\n").wifiSignalLevel = some (-67) ∧
    (getNetworkInfoParse "" "Wi-Fi is disabled\n").wifiSignalLevel = some 0 :=
  ⟨(claim10_signal_level_defined "" "Wi-Fi is enabled\nSignalLevel: -67\n").2.2.2.1 (-67) (by rfl),
   (claim10_signal_level_defined "" "Wi-Fi is disabled\n").2.2.1 (by rfl)⟩

/-! ## Claim C2 -/

/-- The original characters survive sanitisation in order: only insertions
happen. -/
theorem sanitizeAux_sublist (cs : List Char) :
    ∀ b, List.Sublist cs (sanitizeAux cs b) := by
  induction cs with
  | nil => intro b; simp [sanitizeAux]
  | cons c cs ih =>
      intro b
      by_cases h : isWs c
      · cases b
        · have e : sanitizeAux (c :: cs) false = '\\' :: c :: sanitizeAux cs true := by
            simp [sanitizeAux, h]
          rw [e]
          exact List.Sublist.cons '\\' (List.Sublist.cons₂ c (ih true))
        · have e : sanitizeAux (c :: cs) true = c :: sanitizeAux cs true := by
            simp [sanitizeAux, h]
          rw [e]
          exact List.Sublist.cons₂ c (ih true)
      · have e : sanitizeAux (c :: cs) b = c :: sanitizeAux cs false := by
          simp [sanitizeAux, h]
        rw [e]
        exact List.Sublist.cons₂ c (ih false)

/-- Dropping backslashes, the sanitised string is the original: the only
inserted characters are backslashes and nothing else changes. -/
theorem sanitizeAux_filter (cs : List Char) :
    ∀ b, (sanitizeAux cs b).filter (fun c => c != '\\') =
      cs.filter (fun c => c != '\\') := by
  induction cs with
  | nil => intro b; simp [sanitizeAux]
  | cons c cs ih =>
      intro b
      have hq : (('\\' : Char) != '\\') = false := by decide
      by_cases h : isWs c
      · have hcne : (c != '\\') = true := by
          have hne : c ≠ '\\' := by
            intro hEq; rw [hEq] at h; exact absurd h (by decide)
          simpa using hne
        cases b
        · have e : sanitizeAux (c :: cs) false = '\\' :: c :: sanitizeAux cs true := by
            simp [sanitizeAux, h]
          rw [e]
          simp [List.filter_cons, hq, hcne, ih true]
        · have e : sanitizeAux (c :: cs) true = c :: sanitizeAux cs true := by
            simp [sanitizeAux, h]
          rw [e]
          simp [List.filter_cons, hcne, ih true]
      · have e : sanitizeAux (c :: cs) b = c :: sanitizeAux cs false := by
          simp [sanitizeAux, h]
        rw [e]
        by_cases hc : (c != '\\') = true <;>
          simp [List.filter_cons, hc, ih false]

/-- Exactly one backslash is inserted per maximal whitespace run. -/
theorem sanitizeAux_count (cs : List Char) :
    ∀ b, (sanitizeAux cs b).count '\\' =
      cs.count '\\' + wsRunStarts cs b := by
  induction cs with
  | nil => intro b; simp [sanitizeAux, wsRunStarts]
  | cons c cs ih =>
      intro b
      by_cases h : isWs c
      · have hcne : c ≠ '\\' := by
          intro hEq; rw [hEq] at h; exact absurd h (by decide)
        cases b
        · have e : sanitizeAux (c :: cs) false = '\\' :: c :: sanitizeAux cs true := by
            simp [sanitizeAux, h]
          rw [e]
          simp [List.count_cons, hcne, ih true, wsRunStarts, h]
          omega
        · have e : sanitizeAux (c :: cs) true = c :: sanitizeAux cs true := by
            simp [sanitizeAux, h]
          rw [e]
          simp [List.count_cons, hcne, ih true, wsRunStarts, h]
      · have e : sanitizeAux (c :: cs) b = c :: sanitizeAux cs false := by
          simp [sanitizeAux, h]
        have hw : isWs '\\' = false := by decide
        rw [e]
        by_cases hc : c = '\\'
        · simp [List.count_cons, hc, ih false, wsRunStarts, h, hw]
          omega
        · simp [List.count_cons, hc, ih false, wsRunStarts, h, hw]

/-- The sanitised string never begins with a whitespace character: a leading
run gets its backslash first. -/
theorem sanitizeAux_head_false (cs : List Char) :
    ∀ c, (sanitizeAux cs false).head? = some c → isWs c = false := by
  cases cs with
  | nil => intro c h; simp [sanitizeAux] at h
  | cons a tl =>
      intro c h
      by_cases ha : isWs a
      · have e : sanitizeAux (a :: tl) false = '\\' :: a :: sanitizeAux tl true := by
          simp [sanitizeAux, ha]
        rw [e] at h
        simp only [List.head?_cons, Option.some.injEq] at h
        rw [← h]
        decide
      · have e : sanitizeAux (a :: tl) false = a :: sanitizeAux tl false := by
          simp [sanitizeAux, ha]
        rw [e] at h
        simp only [List.head?_cons, Option.some.injEq] at h
        rw [← h]
        simpa using ha

/-- In the sanitised string, every whitespace character is preceded by a
backslash (when it begins a run) or by another whitespace character (when it
continues one). -/
theorem sanitizeAux_chain (cs : List Char) :
    ∀ b, List.Chain' (fun x y => isWs y = true → x = '\\' ∨ isWs x = true)
      (sanitizeAux cs b) := by
  induction cs with
  | nil => intro b; simp [sanitizeAux]
  | cons c cs ih =>
      intro b
      by_cases h : isWs c
      · cases b
        · have e : sanitizeAux (c :: cs) false = '\\' :: c :: sanitizeAux cs true := by
            simp [sanitizeAux, h]
          rw [e]
          refine List.chain'_cons'.mpr ⟨?_, List.chain'_cons'.mpr ⟨?_, ih true⟩⟩
          · intro y _ _; exact Or.inl rfl
          · intro y _ _; exact Or.inr h
        · have e : sanitizeAux (c :: cs) true = c :: sanitizeAux cs true := by
            simp [sanitizeAux, h]
          rw [e]
          refine List.chain'_cons'.mpr ⟨?_, ih true⟩
          intro y _ _; exact Or.inr h
      · have e : sanitizeAux (c :: cs) b = c :: sanitizeAux cs false := by
          simp [sanitizeAux, h]
        rw [e]
        refine List.chain'_cons'.mpr ⟨?_, ih false⟩
        intro y hy hWs
        have hf := sanitizeAux_head_false cs y hy
        rw [hf] at hWs
        exact absurd hWs (by decide)

/-- C2, counterexample to the claim as stated: the regex `/(\s+)/g` escapes
each maximal whitespace RUN once, not each space.  For the input `a  b`
(two consecutive spaces) the output is `a\  b`: the second space is
preceded by the first space, not by an escape character. -/
theorem claim2_counterexample :
    containsSub "a  b" " " = true ∧
    sanitizePath "a  b" = "a\\  b" ∧
    ¬ (∀ i, i < 4 → ((sanitizePath "a  b").toList.getD (i + 1) 'x' = ' ' →
        (sanitizePath "a  b").toList.getD i 'x' = '\\')) := by
  refine ⟨by decide, by decide, by decide⟩

/-- C2, amended: `sanitizePath` inserts exactly one backslash immediately
before each maximal run of whitespace and changes nothing else: the input is
a subsequence of the output; deleting backslashes from the output yields the
same as deleting them from the input (so no other character is altered,
removed or added); the number of inserted backslashes equals the number of
whitespace runs; each whitespace character of the output is preceded by a
backslash, or by another whitespace character when it merely continues a
run; and the output never begins with whitespace.  (The claim as stated
holds for paths whose whitespace characters are all isolated: then each
run is a single space preceded by one backslash.) -/
theorem claim2_sanitize_escapes_runs (path : String) :
    List.Sublist path.toList (sanitizePath path).toList ∧
    (sanitizePath path).toList.filter (fun c => c != '\\') =
      path.toList.filter (fun c => c != '\\') ∧
    (sanitizePath path).toList.count '\\' =
      path.toList.count '\\' + wsRunStarts path.toList false ∧
    List.Chain' (fun x y => isWs y = true → x = '\\' ∨ isWs x = true)
      (sanitizePath path).toList ∧
    (∀ c, (sanitizePath path).toList.head? = some c → isWs c = false) := by
  have hs : (sanitizePath path).toList = sanitizeAux path.toList false := rfl
  rw [hs]
  exact ⟨sanitizeAux_sublist path.toList false,
    sanitizeAux_filter path.toList false,
    sanitizeAux_count path.toList false,
    sanitizeAux_chain path.toList false,
    sanitizeAux_head_false path.toList⟩

/-- C2 witness: for a path with one space, exactly one backslash is
inserted, the original is a subsequence of the output, and the output is
`my\ app.png`. -/
theorem claim2_witness :
    List.Sublist "my app.png".toList (sanitizePath "my app.png").toList ∧
    (sanitizePath "my app.png").toList.count '\\' = 1 ∧
    sanitizePath "my app.png" = "my\\ app.png" := by
  have h := claim2_sanitize_escapes_runs "my app.png"
  refine ⟨h.1, ?_, by decide⟩
  rw [h.2.2.1]
  decide

/-! ## Claim C4 -/

/-- `find?` over an appended list: search the left part first. -/
theorem find?_append_eq {α : Type} (p : α → Bool) :
    ∀ l₁ l₂ : List α, List.find? p (l₁ ++ l₂) =
      match List.find? p l₁ with
      | some a => some a
      | none => List.find? p l₂ := by
  intro l₁
  induction l₁ with
  | nil => intro l₂; simp
  | cons a l ih =>
      intro l₂
      by_cases h : p a = true
      · rw [List.cons_append, List.find?_cons_of_pos _ h,
          List.find?_cons_of_pos _ h]
      · rw [List.cons_append, List.find?_cons_of_neg _ (by simpa using h),
          List.find?_cons_of_neg _ (by simpa using h), ih]

/-- Every field produced by the whitespace splitter is non-empty
(`filter(Boolean)` removed the empty ones). -/
theorem splitWsAux_ne_nil :
    ∀ (cs : List Char) (acc : List Char), ∀ t ∈ splitWsAux cs acc, t ≠ [] := by
  intro cs
  induction cs with
  | nil =>
      intro acc t ht
      by_cases h : acc.isEmpty
      · simp [splitWsAux, h] at ht
      · have e : splitWsAux [] acc = [acc.reverse] := by simp [splitWsAux, h]
        rw [e] at ht
        have hacc : acc ≠ [] := fun hh => by simp [hh] at h
        rcases List.mem_singleton.mp ht with rfl
        simpa [List.reverse_eq_nil_iff] using hacc
  | cons c cs ih =>
      intro acc t ht
      by_cases h : isWs c
      · by_cases ha : acc.isEmpty
        · have e : splitWsAux (c :: cs) acc = splitWsAux cs [] := by
            simp [splitWsAux, h, ha]
          rw [e] at ht
          exact ih [] t ht
        · have e : splitWsAux (c :: cs) acc = acc.reverse :: splitWsAux cs [] := by
            simp [splitWsAux, h, ha]
          rw [e] at ht
          rcases List.mem_cons.mp ht with rfl | ht₂
          · have hacc : acc ≠ [] := fun hh => by simp [hh] at ha
            simpa [List.reverse_eq_nil_iff] using hacc
          · exact ih [] t ht₂
      · have e : splitWsAux (c :: cs) acc = splitWsAux cs (c :: acc) := by
          simp [splitWsAux, h]
        rw [e] at ht
        exact ih (c :: acc) t ht

/-- Every token produced by `splitWs` is a non-empty string. -/
theorem splitWs_ne_empty (s : String) : ∀ t ∈ splitWs s, t ≠ "" := by
  intro t ht
  obtain ⟨l, hl, rfl⟩ := List.mem_map.mp ht
  intro hEq
  have hd := congrArg String.data hEq
  exact splitWsAux_ne_nil s.toList [] l hl (by simpa using hd)

/-- The `rest.forEach` fold never touches the serial number or the
connection state. -/
theorem foldl_applyToken_fixed :
    ∀ (items : List String) (info : DeviceInfo),
      (items.foldl applyToken info).serialNumber = info.serialNumber ∧
      (items.foldl applyToken info).state = info.state := by
  intro items
  induction items with
  | nil => intro info; exact ⟨rfl, rfl⟩
  | cons it its ih =>
      intro info
      have e1 : (applyToken info it).serialNumber = info.serialNumber := by
        simp only [applyToken]; split_ifs <;> rfl
      have e2 : (applyToken info it).state = info.state := by
        simp only [applyToken]; split_ifs <;> rfl
      rw [List.foldl_cons]
      exact ⟨(ih (applyToken info it)).1.trans e1,
        (ih (applyToken info it)).2.trans e2⟩

/-- The `rest.forEach` fold leaves `model` equal to the value of the last
`model:`-keyed token, or the initial value when there is none. -/
theorem foldl_applyToken_model :
    ∀ (items : List String) (info : DeviceInfo),
      (items.foldl applyToken info).model =
        match items.reverse.find? (fun it => kvKey it == "model") with
        | some it => kvValue it
        | none => info.model := by
  intro items
  induction items with
  | nil => intro info; rfl
  | cons it its ih =>
      intro info
      rw [List.foldl_cons, ih (applyToken info it), List.reverse_cons,
        find?_append_eq]
      cases hf : its.reverse.find? (fun it => kvKey it == "model") with
      | some it₂ => rfl
      | none =>
          by_cases hk : kvKey it = "model"
          · simp [List.find?, hk, applyToken]
          · have hm : (kvKey it == "model") = false := by simpa using hk
            by_cases hk₂ : kvKey it = "product"
            · simp [List.find?, hm, hk, hk₂, applyToken]
            · simp [List.find?, hm, hk, hk₂, applyToken]

/-- The `rest.forEach` fold leaves `product` equal to the value of the last
`product:`-keyed token, or the initial value when there is none. -/
theorem foldl_applyToken_product :
    ∀ (items : List String) (info : DeviceInfo),
      (items.foldl applyToken info).product =
        match items.reverse.find? (fun it => kvKey it == "product") with
        | some it => kvValue it
        | none => info.product := by
  intro items
  induction items with
  | nil => intro info; rfl
  | cons it its ih =>
      intro info
      rw [List.foldl_cons, ih (applyToken info it), List.reverse_cons,
        find?_append_eq]
      cases hf : its.reverse.find? (fun it => kvKey it == "product") with
      | some it₂ => rfl
      | none =>
          by_cases hk : kvKey it = "product"
          · by_cases hk₂ : kvKey it = "model"
            · rw [hk] at hk₂; exact absurd hk₂.symm (by decide)
            · simp [List.find?, hk, hk₂, applyToken]
          · have hm : (kvKey it == "product") = false := by simpa using hk
            by_cases hk₂ : kvKey it = "model"
            · simp [List.find?, hm, hk, hk₂, applyToken]
            · simp [List.find?, hm, hk, hk₂, applyToken]

/-- C4: for every device-list output, the parser returns exactly one
descriptor per device line (non-blank lines after the header); and every
well-formed device line — at least two whitespace-separated tokens, the
second drawn from the state enum — parses to a descriptor whose identifier
is the line's (non-empty) first token, whose state is the second token (a
member of the fixed enum), and whose model/product fields hold the value of
the last `model:`/`product:` key:value token, absent when there is none. -/
theorem claim4_device_list (output : String) :
    (getDevicesParse output).length = (deviceLines output).length ∧
    ∀ l ∈ deviceLines output, 2 ≤ (splitWs l).length →
      (splitWs l).getD 1 "" ∈ stateEnum →
      (parseDeviceLine l).serialNumber = (splitWs l).headD "" ∧
      (parseDeviceLine l).serialNumber ≠ "" ∧
      (parseDeviceLine l).state = some ((splitWs l).getD 1 "") ∧
      (∃ st ∈ stateEnum, (parseDeviceLine l).state = some st) ∧
      (parseDeviceLine l).model = lastKVValue "model" ((splitWs l).drop 1) ∧
      (parseDeviceLine l).product = lastKVValue "product" ((splitWs l).drop 1) := by
  refine ⟨by simp [getDevicesParse], ?_⟩
  intro l _ hlen hst
  rcases hT : splitWs l with _ | ⟨a, _ | ⟨b, ts⟩⟩
  · rw [hT] at hlen; simp at hlen
  · rw [hT] at hlen; simp at hlen
  · have hP : parseDeviceLine l =
        (b :: ts).foldl applyToken
          { serialNumber := a, state := some b, model := none,
            product := none } := by
      simp [parseDeviceLine, hT]
    rw [hT] at hst
    have hfix := foldl_applyToken_fixed (b :: ts)
      { serialNumber := a, state := some b, model := none, product := none }
    refine ⟨?_, ?_, ?_, ?_, ?_, ?_⟩
    · rw [hP, hfix.1]; rfl
    · rw [hP, hfix.1]
      have ha : a ∈ splitWs l := by rw [hT]; exact List.mem_cons_self a _
      exact splitWs_ne_empty l a ha
    · rw [hP, hfix.2]; rfl
    · refine ⟨b, by simpa using hst, ?_⟩
      rw [hP, hfix.2]
    · rw [hP, foldl_applyToken_model]
      unfold lastKVValue
      simp only [List.drop_succ_cons, List.drop_zero]
    · rw [hP, foldl_applyToken_product]
      unfold lastKVValue
      simp only [List.drop_succ_cons, List.drop_zero]

/-- C4 witness: a two-device listing parses to exactly two descriptors with
the expected identifiers, states, and model/product values. -/
theorem claim4_witness :
    (getDevicesParse "List of devices attached\nemulator-5554 device usb:1-1 product:sdk_gphone model:Pixel_5\n\nabc123 unauthorized\n").length = 2 ∧
    (parseDeviceLine "emulator-5554 device usb:1-1 product:sdk_gphone model:Pixel_5").serialNumber = "emulator-5554" ∧
    (parseDeviceLine "emulator-5554 device usb:1-1 product:sdk_gphone model:Pixel_5").state = some "device" ∧
    (parseDeviceLine "emulator-5554 device usb:1-1 product:sdk_gphone model:Pixel_5").model = some "Pixel_5" ∧
    (parseDeviceLine "emulator-5554 device usb:1-1 product:sdk_gphone model:Pixel_5").product = some "sdk_gphone" := by
  have h := claim4_device_list
    "List of devices attached\nemulator-5554 device usb:1-1 product:sdk_gphone model:Pixel_5\n\nabc123 unauthorized\n"
  have hl := h.2 "emulator-5554 device usb:1-1 product:sdk_gphone model:Pixel_5"
    (by decide) (by decide) (by decide)
  refine ⟨h.1.trans (by decide), hl.1.trans (by decide), hl.2.2.1.trans (by decide),
    hl.2.2.2.2.1.trans (by decide), hl.2.2.2.2.2.trans (by decide)⟩

end AdbClient
